import Mathlib

/-!
Verification of the HBV Sponsor Outreach Agent (`app.py`).

Shallow embedding: Python strings are `List Char`; `str.lower()` is modelled
per-character by `Char.toLower` (the keyword lists and example inputs are
ASCII, where the two agree); Python's substring test `kw in desc` is
`containsSub`; SQLite tables are Lean lists of records; wall-clock times are
rationals; the SMTP session (which may raise) is an abstract
`Except (List Char) Unit` outcome.
-/

namespace HBV

/-- Boolean test that `n` is an initial segment of `h`
(models the anchored part of Python's substring test). -/
def startsWith : List Char → List Char → Bool
  | [], _ => true
  | _ :: _, [] => false
  | a :: as, b :: bs => a == b && startsWith as bs

/-- Boolean substring containment: models Python's `n in h` on strings. -/
def containsSub (n : List Char) : List Char → Bool
  | [] => startsWith n []
  | c :: t => startsWith n (c :: t) || containsSub n t

/-- Per-character lowercase; models `str.lower()` on ASCII text. -/
def pyLower (s : List Char) : List Char := s.map Char.toLower

/-- The eight high-relevance keywords of `calculate_priority` (app.py line 136). -/
def keywords_high : List (List Char) :=
  ["hepatitis b".data, "hbv".data, "liver".data, "transplant".data,
   "nigeria".data, "africa".data, "grant".data, "sponsor".data]

/-- The six medium-relevance keywords of `calculate_priority` (app.py line 137). -/
def keywords_medium : List (List Char) :=
  ["medical".data, "health".data, "christian".data, "charity".data,
   "donation".data, "ngo".data]

/-- Embedding of `calculate_priority` (app.py lines 134-143): lowercase the
description, add 20 per high keyword found, 8 per medium keyword found,
clamp at 100. -/
def calculate_priority (description : List Char) : Nat :=
  let desc := pyLower description
  let score :=
    keywords_high.foldl (fun score kw => if containsSub kw desc then score + 20 else score) 0
  let score :=
    keywords_medium.foldl (fun score kw => if containsSub kw desc then score + 8 else score) score
  min score 100

/-- Number of high keywords occurring (case-insensitively) in a description. -/
def high_count (description : List Char) : Nat :=
  (keywords_high.filter (fun kw => containsSub kw (pyLower description))).length

/-- Number of medium keywords occurring (case-insensitively) in a description. -/
def medium_count (description : List Char) : Nat :=
  (keywords_medium.filter (fun kw => containsSub kw (pyLower description))).length

/-- Result string of `send_email` (app.py lines 110-131). The whole body is
wrapped in `try/except Exception`: the abstract `session` outcome is either
success of the message build + SMTP session, or the exception's string.
Both branches return a string; nothing is raised. -/
def send_email_result (to_email : List Char) (session : Except (List Char) Unit) :
    List Char :=
  match session with
  | Except.ok _ => "✅ Sent to ".data ++ to_email
  | Except.error e => "Failed to ".data ++ to_email ++ ": ".data ++ e

/-- State of the `rate_limit` decorator closure (app.py lines 29-42):
the `last_called` timestamp, initially 0 and updated to the wall-clock time
right after the wrapped function returns. -/
structure RLState where
  last_called : ℚ
deriving DecidableEq

/-- One invocation of the `rate_limit(seconds)` wrapper: at arrival time
`arrival` with closure state `st`, if `arrival - st.last_called < seconds`
the caller sleeps until `st.last_called + seconds`; the wrapped call then
starts and runs for `dur`, and `last_called` becomes its completion time.
Returns (start time of the wrapped call, new closure state). -/
def rate_limit_call (seconds : ℚ) (st : RLState) (arrival dur : ℚ) : ℚ × RLState :=
  let start := if arrival - st.last_called < seconds then st.last_called + seconds else arrival
  (start, ⟨start + dur⟩)

/-- Sponsor row of the `sponsors` table (app.py lines 50-53).
`email` is nullable (`Option`); `priority` defaults to 0. -/
structure Sponsor where
  id : Nat
  name : Option (List Char)
  email : Option (List Char)
  description : List Char
  source : List Char
  priority : Nat
  added_date : List Char
deriving DecidableEq

/-- Outreach row of the `outreach` table (app.py lines 54-57). -/
structure OutreachEvent where
  id : Nat
  sponsor_id : Nat
  sent_date : List Char
  status : List Char
  message : List Char
deriving DecidableEq

/-- SQLite semantics of `email TEXT UNIQUE` on an INSERT into `sponsors`:
a row whose non-NULL email already occurs is rejected with a constraint
error; NULL emails are exempt from UNIQUE. -/
def insert_sponsor (table : List Sponsor) (row : Sponsor) :
    Except Unit (List Sponsor) :=
  match row.email with
  | none => Except.ok (table ++ [row])
  | some e =>
      if table.any (fun t => t.email == some e) then Except.error ()
      else Except.ok (table ++ [row])

/-- A table respects the UNIQUE constraint: at most one sponsor per
non-NULL email value. -/
def EmailUnique (table : List Sponsor) : Prop :=
  ∀ e : List Char, (table.filter (fun t => t.email == some e)).length ≤ 1

/-- The `WHERE ... s.email IS NOT NULL AND s.email LIKE '%@%'` condition of
the pending query (app.py line 243). -/
def plausible_email (s : Sponsor) : Bool :=
  match s.email with
  | some e => e.contains '@'
  | none => false

/-- The `LEFT JOIN outreach o ON s.id = o.sponsor_id ... WHERE o.id IS NULL`
condition (app.py lines 242-243): some outreach row references the sponsor. -/
def has_outreach (out : List OutreachEvent) (s : Sponsor) : Bool :=
  out.any (fun o => o.sponsor_id == s.id)

/-- Ordering relation of `ORDER BY s.priority DESC` (app.py line 244). -/
def prioGE (a b : Sponsor) : Prop := b.priority ≤ a.priority

instance : DecidableRel prioGE := fun a b => Nat.decLe b.priority a.priority

instance : IsTotal Sponsor prioGE := ⟨fun a b => Nat.le_total b.priority a.priority⟩

instance : IsTrans Sponsor prioGE := ⟨fun _ _ _ h1 h2 => Nat.le_trans h2 h1⟩

/-- Embedding of the pending-send query (app.py lines 239-245): sponsors with
no outreach event and a plausible email, ordered by descending priority. -/
def pending_query (sponsors : List Sponsor) (out : List OutreachEvent) :
    List Sponsor :=
  List.insertionSort prioGE
    (sponsors.filter (fun s => !has_outreach out s && plausible_email s))

/-- Mutable state touched by the tab-3 send loop (app.py lines 262-284):
the `outreach` table, its next AUTOINCREMENT id, the recipients actually
passed to the mail tool, and the `results` list shown in the UI. -/
structure SendState where
  outreach : List OutreachEvent
  next_id : Nat
  attempts : List (List Char)
  results : List (List Char)
deriving DecidableEq

/-- One iteration per pending row (app.py lines 263-281): call `send_email`
(whose SMTP outcome is abstracted by `outcome`), then unconditionally INSERT
one outreach record with the returned status and message "HTML template",
and append a result line. -/
def send_loop (outcome : Sponsor → Except (List Char) Unit) (date : List Char) :
    List Sponsor → SendState → SendState
  | [], st => st
  | row :: rest, st =>
      let toAddr := row.email.getD []
      let status := send_email_result toAddr (outcome row)
      send_loop outcome date rest
        { outreach := st.outreach ++
            [{ id := st.next_id, sponsor_id := row.id, sent_date := date,
               status := status, message := "HTML template".data }],
          next_id := st.next_id + 1,
          attempts := st.attempts ++ [toAddr],
          results := st.results ++ [toAddr ++ " → ".data ++ status] }

/-- The outreach records the loop is expected to append, one per row in
order, starting at AUTOINCREMENT id `nid`. -/
def events_of (outcome : Sponsor → Except (List Char) Unit) (date : List Char) :
    Nat → List Sponsor → List OutreachEvent
  | _, [] => []
  | nid, row :: rest =>
      { id := nid, sponsor_id := row.id, sent_date := date,
        status := send_email_result (row.email.getD []) (outcome row),
        message := "HTML template".data } :: events_of outcome date (nid + 1) rest

/-- The guarded send action (app.py lines 255-284): Python's
`if not from_email or not password` treats the empty string as falsy, so
missing credentials short-circuit with an inline error and the state is
untouched; otherwise the loop runs over all pending rows. -/
def send_action (from_email password : List Char)
    (outcome : Sponsor → Except (List Char) Unit) (date : List Char)
    (rows : List Sponsor) (st : SendState) :
    Option (List Char) × SendState :=
  if from_email.isEmpty || password.isEmpty then
    (some "Set email credentials in sidebar first".data, st)
  else
    (none, send_loop outcome date rows st)

/-- Concrete sponsor row used to exercise the theorems on closed inputs. -/
def sampleSponsorA : Sponsor :=
  { id := 1, name := some "Hope Foundation".data, email := some "x@y.org".data,
    description := "liver grant".data, source := "web".data, priority := 40,
    added_date := "2026-01-01".data }

/-- A second concrete sponsor row sharing `sampleSponsorA`'s email. -/
def sampleSponsorB : Sponsor :=
  { id := 2, name := none, email := some "x@y.org".data,
    description := "ngo".data, source := "web".data, priority := 8,
    added_date := "2026-01-02".data }

/-- A concrete SMTP outcome: every session fails with an authentication error. -/
def sampleOutcome : Sponsor → Except (List Char) Unit :=
  fun _ => Except.error "SMTPAuthenticationError".data

/-- A concrete initial send-loop state: empty outreach table. -/
def sampleState : SendState :=
  { outreach := [], next_id := 1, attempts := [], results := [] }

/-! ### Helper lemmas -/

theorem foldl_score_count (ks : List (List Char)) (p : List Char → Bool) (w s : Nat) :
    ks.foldl (fun acc kw => if p kw then acc + w else acc) s
      = s + w * (ks.filter p).length := by
  induction ks generalizing s with
  | nil => simp
  | cons k ks ih =>
      by_cases h : p k
      · simp [List.foldl_cons, List.filter_cons, h, ih, Nat.mul_succ]
        omega
      · simp [List.foldl_cons, List.filter_cons, h, ih]

theorem priority_eq_counts (d : List Char) :
    calculate_priority d = min (20 * high_count d + 8 * medium_count d) 100 := by
  simp only [calculate_priority, high_count, medium_count]
  rw [foldl_score_count, foldl_score_count]
  omega

theorem startsWith_append_right (n b : List Char) : startsWith n (n ++ b) = true := by
  induction n with
  | nil => rfl
  | cons c cs ih => simp [startsWith, ih]

theorem startsWith_extend (n h h2 : List Char) (hs : startsWith n h = true) :
    startsWith n (h ++ h2) = true := by
  induction n generalizing h with
  | nil => rfl
  | cons c cs ih =>
      cases h with
      | nil => simp [startsWith] at hs
      | cons b bs =>
          simp [startsWith] at hs ⊢
          exact ⟨hs.1, ih bs hs.2⟩

theorem containsSub_nil_left (h : List Char) : containsSub [] h = true := by
  cases h <;> simp [containsSub, startsWith]

theorem containsSub_prepend (n a h : List Char) (hc : containsSub n h = true) :
    containsSub n (a ++ h) = true := by
  induction a with
  | nil => simpa using hc
  | cons c cs ih => simp [containsSub, ih]

theorem containsSub_self_append (n b : List Char) : containsSub n (n ++ b) = true := by
  cases n with
  | nil => exact containsSub_nil_left b
  | cons c cs =>
      have h := startsWith_append_right (c :: cs) b
      simp only [List.cons_append] at h
      simp [containsSub, h]

theorem containsSub_middle (a n b : List Char) : containsSub n (a ++ n ++ b) = true := by
  rw [List.append_assoc]
  exact containsSub_prepend n a (n ++ b) (containsSub_self_append n b)

theorem containsSub_extend (n h h2 : List Char) (hc : containsSub n h = true) :
    containsSub n (h ++ h2) = true := by
  induction h with
  | nil =>
      cases n with
      | nil => exact containsSub_nil_left h2
      | cons c cs => simp [containsSub, startsWith] at hc
  | cons c t ih =>
      simp only [containsSub, Bool.or_eq_true] at hc ⊢
      cases hc with
      | inl hs => exact Or.inl (startsWith_extend n (c :: t) h2 hs)
      | inr hr => exact Or.inr (ih hr)

theorem filter_length_mono (ks : List (List Char)) (p q : List Char → Bool)
    (h : ∀ k, p k = true → q k = true) :
    (ks.filter p).length ≤ (ks.filter q).length := by
  induction ks with
  | nil => simp
  | cons k ks ih =>
      simp only [List.filter_cons]
      by_cases hp : p k
      · simp [hp, h k hp]
        omega
      · by_cases hq : q k <;> simp [hp, hq] <;> omega

theorem send_loop_outreach (outcome : Sponsor → Except (List Char) Unit)
    (date : List Char) (rows : List Sponsor) (st : SendState) :
    (send_loop outcome date rows st).outreach
      = st.outreach ++ events_of outcome date st.next_id rows := by
  induction rows generalizing st with
  | nil => simp [send_loop, events_of]
  | cons row rest ih =>
      simp only [send_loop, events_of]
      rw [ih]
      simp [List.append_assoc]

theorem events_forall2 (outcome : Sponsor → Except (List Char) Unit)
    (date : List Char) (nid : Nat) (rows : List Sponsor) :
    List.Forall₂
      (fun (ev : OutreachEvent) (row : Sponsor) =>
        ev.sponsor_id = row.id ∧
        ev.status = send_email_result (row.email.getD []) (outcome row))
      (events_of outcome date nid rows) rows := by
  induction rows generalizing nid with
  | nil => exact List.Forall₂.nil
  | cons row rest ih => exact List.Forall₂.cons ⟨rfl, rfl⟩ (ih (nid + 1))

/-! ### Claim theorems -/

/-- C1: for every description, `calculate_priority` returns
`min (20 * high_count + 8 * medium_count) 100`, where the counts are the
numbers of high/medium keywords occurring case-insensitively as substrings
of the description, and the result is always at most 100 (it is a natural
number, hence in `[0, 100]`). -/
theorem priority_formula (d : List Char) :
    calculate_priority d = min (20 * high_count d + 8 * medium_count d) 100 ∧
    calculate_priority d ≤ 100 := by
  refine ⟨priority_eq_counts d, ?_⟩
  rw [priority_eq_counts d]
  omega

/-- C2: the spec's worked example. The description "NGO funding Hepatitis B
and liver transplant patients in Nigeria" matches high keywords
hepatitis b, liver, transplant and nigeria (80) and medium keyword ngo (8),
so `calculate_priority` returns 88. -/
theorem priority_example_value :
    calculate_priority
      "NGO funding Hepatitis B and liver transplant patients in Nigeria".data
      = 88 := by
  decide

/-- C3: `send_email` catches any exception and returns a string in both the
success and failure branches (by construction of `send_email_result`, which
is total over every abstract session outcome), and every returned string
contains the recipient address as a substring. -/
theorem send_email_contains_recipient (to_email : List Char)
    (session : Except (List Char) Unit) :
    containsSub to_email (send_email_result to_email session) = true := by
  cases session with
  | ok u =>
      have h := containsSub_middle "✅ Sent to ".data to_email []
      simpa [send_email_result] using h
  | error e =>
      have h := containsSub_middle "Failed to ".data to_email (": ".data ++ e)
      simpa [send_email_result, List.append_assoc] using h

/-- C4: with the configured interval of 5 seconds, for any two consecutive
invocations of the rate-limited mail tool, the second wrapped call starts at
least 5 seconds after the first one completed (`last_called` records the
first call's completion): the wrapper sleeps whenever the second call
arrives sooner. -/
theorem rate_limit_spacing (st : RLState) (a1 d1 a2 d2 : ℚ) :
    (rate_limit_call 5 st a1 d1).2.last_called + 5 ≤
      (rate_limit_call 5 (rate_limit_call 5 st a1 d1).2 a2 d2).1 := by
  generalize (rate_limit_call 5 st a1 d1).2 = st1
  simp only [rate_limit_call]
  split
  · exact le_refl _
  · next h => linarith

/-- C5: the `email TEXT UNIQUE` constraint. Inserting a sponsor whose
non-NULL email is already present in the table fails with a constraint
error, and any successful insert preserves the at-most-one-sponsor-per-email
invariant. -/
theorem email_uniqueness (table : List Sponsor) (row : Sponsor) :
    (∀ e : List Char, row.email = some e → (∃ t ∈ table, t.email = some e) →
        insert_sponsor table row = Except.error ()) ∧
    (∀ table2 : List Sponsor, EmailUnique table →
        insert_sponsor table row = Except.ok table2 → EmailUnique table2) := by
  constructor
  · intro e he hmem
    have hany : table.any (fun t => t.email == some e) = true := by
      rw [List.any_eq_true]
      obtain ⟨t, ht, hte⟩ := hmem
      exact ⟨t, ht, by simp [hte]⟩
    simp [insert_sponsor, he, hany]
  · intro table2 hu hok
    cases hrow : row.email with
    | none =>
        simp only [insert_sponsor, hrow] at hok
        injection hok with h2
        subst h2
        intro e
        rw [List.filter_append]
        have hone : List.filter (fun t => t.email == some e) [row] = [] := by
          simp [List.filter_cons, hrow]
        rw [hone, List.append_nil]
        exact hu e
    | some e0 =>
        simp only [insert_sponsor, hrow] at hok
        split at hok
        · exact absurd hok (by simp)
        · next hany =>
            injection hok with h2
            subst h2
            intro e
            rw [List.filter_append, List.length_append]
            by_cases hre : (row.email == some e) = true
            · have he0 : some e0 = some e := by
                rw [hrow] at hre
                exact beq_iff_eq.mp hre
              have hnil : List.filter (fun t => t.email == some e) table = [] := by
                apply List.filter_eq_nil_iff.mpr
                intro t ht hc
                apply hany
                apply List.any_eq_true.mpr
                refine ⟨t, ht, ?_⟩
                rw [he0]
                exact hc
              rw [hnil]
              simp [List.filter_cons, hre]
            · have hone : List.filter (fun t => t.email == some e) [row] = [] := by
                simp only [List.filter_cons, List.filter_nil]
                rw [if_neg]
                exact fun hc => hre hc
              rw [hone]
              simpa using hu e

/-- C5 witness: inserting `sampleSponsorB`, whose email equals
`sampleSponsorA`'s, into the singleton table `[sampleSponsorA]` is rejected
by the uniqueness constraint. -/
theorem email_uniqueness_witness :
    sampleSponsorB.email = some "x@y.org".data ∧
    insert_sponsor [sampleSponsorA] sampleSponsorB = Except.error () :=
  ⟨rfl, (email_uniqueness [sampleSponsorA] sampleSponsorB).1 "x@y.org".data rfl
      ⟨sampleSponsorA, List.mem_singleton.mpr rfl, rfl⟩⟩

/-- C6: the pending-send query returns exactly the sponsors with no outreach
event referencing them and a plausible email (non-NULL and containing '@'),
ordered by descending priority; in particular every sponsor with an
existing outreach event is excluded. -/
theorem pending_query_correct (sponsors : List Sponsor)
    (out : List OutreachEvent) :
    (∀ s : Sponsor, s ∈ pending_query sponsors out ↔
        s ∈ sponsors ∧ has_outreach out s = false ∧ plausible_email s = true) ∧
    (pending_query sponsors out).Sorted prioGE := by
  constructor
  · intro s
    unfold pending_query
    rw [List.mem_insertionSort, List.mem_filter]
    simp [Bool.and_eq_true]
  · exact List.sorted_insertionSort prioGE _

/-- C7: with credentials present, the approved send action reports no error
and processes every pending row sequentially, appending to the outreach
table exactly one event per row, in order, each referencing that row's
sponsor id and carrying the send's status string — regardless of whether
the abstract SMTP outcome for that row is success or failure. -/
theorem send_action_records_each_row (from_email password : List Char)
    (outcome : Sponsor → Except (List Char) Unit) (date : List Char)
    (rows : List Sponsor) (st : SendState)
    (hf : from_email ≠ []) (hp : password ≠ []) :
    (send_action from_email password outcome date rows st).1 = none ∧
    ((send_action from_email password outcome date rows st).2.outreach.take
        st.outreach.length = st.outreach) ∧
    List.Forall₂
      (fun (ev : OutreachEvent) (row : Sponsor) =>
        ev.sponsor_id = row.id ∧
        ev.status = send_email_result (row.email.getD []) (outcome row))
      ((send_action from_email password outcome date rows st).2.outreach.drop
        st.outreach.length) rows := by
  have hfe : from_email.isEmpty = false := by
    cases from_email with
    | nil => exact absurd rfl hf
    | cons a l => rfl
  have hpe : password.isEmpty = false := by
    cases password with
    | nil => exact absurd rfl hp
    | cons a l => rfl
  have hact : send_action from_email password outcome date rows st
      = (none, send_loop outcome date rows st) := by
    simp [send_action, hfe, hpe]
  rw [hact]
  refine ⟨rfl, ?_, ?_⟩
  · rw [send_loop_outreach]
    exact List.take_left _ _
  · rw [send_loop_outreach, List.drop_left]
    exact events_forall2 outcome date st.next_id rows

/-- C7 witness: one pending row, a failing SMTP outcome, nonempty
credentials; the action reports no error and appends exactly the one
matching event. -/
theorem send_action_records_each_row_witness :
    ("genesis@gmail.com".data ≠ ([] : List Char)) ∧
    ("app-pass".data ≠ ([] : List Char)) ∧
    ((send_action "genesis@gmail.com".data "app-pass".data sampleOutcome
        "2026-01-03".data [sampleSponsorA] sampleState).1 = none ∧
      ((send_action "genesis@gmail.com".data "app-pass".data sampleOutcome
          "2026-01-03".data [sampleSponsorA] sampleState).2.outreach.take
          sampleState.outreach.length = sampleState.outreach) ∧
      List.Forall₂
        (fun (ev : OutreachEvent) (row : Sponsor) =>
          ev.sponsor_id = row.id ∧
          ev.status = send_email_result (row.email.getD []) (sampleOutcome row))
        ((send_action "genesis@gmail.com".data "app-pass".data sampleOutcome
            "2026-01-03".data [sampleSponsorA] sampleState).2.outreach.drop
          sampleState.outreach.length) [sampleSponsorA]) :=
  ⟨by decide, by decide,
    send_action_records_each_row "genesis@gmail.com".data "app-pass".data
      sampleOutcome "2026-01-03".data [sampleSponsorA] sampleState
      (by decide) (by decide)⟩

/-- C8: if either credential is the empty string, the send action
short-circuits with the inline error message and returns the state
untouched: no outreach record is written and no mail attempt is made
(the `attempts` list is unchanged). -/
theorem send_action_missing_credentials (from_email password : List Char)
    (outcome : Sponsor → Except (List Char) Unit) (date : List Char)
    (rows : List Sponsor) (st : SendState)
    (h : from_email = [] ∨ password = []) :
    send_action from_email password outcome date rows st
      = (some "Set email credentials in sidebar first".data, st) := by
  cases h with
  | inl h1 => subst h1; simp [send_action]
  | inr h2 => subst h2; simp [send_action]

/-- C8 witness: an empty password short-circuits the action and leaves the
state unchanged even with a pending row present. -/
theorem send_action_missing_credentials_witness :
    (("genesis@gmail.com".data : List Char) = [] ∨ ([] : List Char) = []) ∧
    send_action "genesis@gmail.com".data [] sampleOutcome "2026-01-03".data
        [sampleSponsorA] sampleState
      = (some "Set email credentials in sidebar first".data, sampleState) :=
  ⟨Or.inr rfl,
    send_action_missing_credentials "genesis@gmail.com".data [] sampleOutcome
      "2026-01-03".data [sampleSponsorA] sampleState (Or.inr rfl)⟩

/-- C9: `calculate_priority` is monotone under appending text: extending a
description can only add keyword matches, never remove them, and `min · 100`
is monotone. -/
theorem priority_monotone_append (d1 d2 : List Char) :
    calculate_priority d1 ≤ calculate_priority (d1 ++ d2) := by
  rw [priority_eq_counts d1, priority_eq_counts (d1 ++ d2)]
  have hmap : pyLower (d1 ++ d2) = pyLower d1 ++ pyLower d2 :=
    List.map_append _ _ _
  have hh : high_count d1 ≤ high_count (d1 ++ d2) := by
    unfold high_count
    apply filter_length_mono
    intro k hk
    rw [hmap]
    exact containsSub_extend k (pyLower d1) (pyLower d2) hk
  have hm : medium_count d1 ≤ medium_count (d1 ++ d2) := by
    unfold medium_count
    apply filter_length_mono
    intro k hk
    rw [hmap]
    exact containsSub_extend k (pyLower d1) (pyLower d2) hk
  omega

/-- C10: the score depends only on which keywords are present, not on how
often each occurs: two descriptions in which exactly the same keywords
occur (case-insensitively) receive the same score, so repeated occurrences
of a keyword contribute its weight only once. -/
theorem priority_keyword_extensional (d1 d2 : List Char)
    (h : ∀ kw ∈ keywords_high ++ keywords_medium,
        containsSub kw (pyLower d1) = containsSub kw (pyLower d2)) :
    calculate_priority d1 = calculate_priority d2 := by
  rw [priority_eq_counts d1, priority_eq_counts d2]
  have hh : high_count d1 = high_count d2 := by
    unfold high_count
    exact congrArg List.length
      (List.filter_congr (fun k hk => h k (List.mem_append_left _ hk)))
  have hm : medium_count d1 = medium_count d2 := by
    unfold medium_count
    exact congrArg List.length
      (List.filter_congr (fun k hk => h k (List.mem_append_right _ hk)))
  rw [hh, hm]

/-- C10 witness: "liver" occurs once in the first description and three
times (in mixed case) in the second; both contain the same keyword set, and
both score 20. -/
theorem priority_keyword_extensional_witness :
    (∀ kw ∈ keywords_high ++ keywords_medium,
        containsSub kw (pyLower "liver".data)
          = containsSub kw (pyLower "liver Liver LIVER".data)) ∧
    calculate_priority "liver".data
      = calculate_priority "liver Liver LIVER".data :=
  ⟨by decide, priority_keyword_extensional "liver".data
      "liver Liver LIVER".data (by decide)⟩

end HBV

